import Mathlib

/-!
Verification of the movie-recommendation engine (movie_recommendations.py).

The Python program keeps two global dictionaries:
  - `user_dict` mapping a user id to a dictionary from movie id to rating;
  - `movie_dict` mapping a movie id to a `Movie` object holding `id`,
    `title`, the list `users` of raters (appended in load order, duplicates
    possible) and the memo dictionary `similarities`.

We embed Python dictionaries as association lists (first occurrence of a
key wins, assignment overwrites in place or appends), ratings as rationals,
and raised exceptions as explicit error values:
  - `get_similarity` returns `none` for an uncaught `KeyError`,
    `some none` for the Python `None` that falls out of the swallowed
    `BadInputError`, and `some (some v)` for a real similarity value;
  - `predict_rating` returns `Except PyErr` together with the updated
    movie catalog (the only state these operations mutate).
In the source, `self` inside `Movie.get_similarity` is the object stored in
`movie_dict` under its own id (every `Movie` is created once, at load, under
the key equal to its `id` field), so the embedding resolves `self` by key;
the invariant `WF` records that the stored id agrees with the key.
-/

namespace MovieRec

/-- Ratings are real numbers in the source; we model them as rationals. -/
abbrev Rating := ℚ

/-- A user's rating dictionary: movie id to rating, in insertion order. -/
abbrev UserRatings := List (Nat × Rating)

/-- `user_dict`: user id to that user's rating dictionary. -/
abbrev UserDict := List (Nat × UserRatings)

/-- The `Movie` class: id, title, rater list, similarity memo dictionary. -/
structure Movie where
  id : Nat
  title : String
  users : List Nat
  similarities : List (Nat × Rating)
deriving DecidableEq, Repr

/-- `movie_dict`: movie id to its `Movie` record. -/
abbrev MovieDict := List (Nat × Movie)

/-- Python dictionary lookup `d[k]` on an association list. -/
def dlookup {α : Type} (k : Nat) : List (Nat × α) → Option α
  | [] => none
  | p :: t => if p.1 = k then some p.2 else dlookup k t

/-- Python dictionary assignment `d[k] = v`: overwrite in place, else append. -/
def dinsert {α : Type} (k : Nat) (v : α) : List (Nat × α) → List (Nat × α)
  | [] => [(k, v)]
  | p :: t => if p.1 = k then (k, v) :: t else p :: dinsert k v t

/-- In-place mutation of the movie object stored under key `i`. -/
def mupdate (i : Nat) (f : Movie → Movie) : MovieDict → MovieDict
  | [] => []
  | p :: t => if p.1 = i then (p.1, f p.2) :: t else p :: mupdate i f t

/-- `user_dict[u][m]`: the rating user `u` gave to movie `m`, if present. -/
def ratingOf (ud : UserDict) (u m : Nat) : Option Rating :=
  (dlookup u ud).bind fun d => dlookup m d

/-- Python's `abs` on a rating difference. -/
def pyAbs (x : ℚ) : ℚ := if x < 0 then -x else x

theorem pyAbs_eq_abs (x : ℚ) : pyAbs x = |x| := by
  rw [pyAbs]
  by_cases h : x < 0
  · rw [if_pos h, abs_of_neg h]
  · rw [if_neg h, abs_of_nonneg (le_of_not_lt h)]

theorem pyAbs_nonneg (x : ℚ) : 0 ≤ pyAbs x := by
  rw [pyAbs_eq_abs]
  exact abs_nonneg x

/-- The loop of `Movie.compute_similarity`: walk `self.users`, and for each
rater also found in the other movie's rater list accumulate the absolute
rating difference and bump the counter.  A missing rating is a `KeyError`,
modelled as `none`. -/
def simFold (ud : UserDict) (id1 id2 : Nat) (users2 : List Nat) :
    List Nat → Rating × Nat → Option (Rating × Nat)
  | [], acc => some acc
  | u :: rest, acc =>
    if u ∈ users2 then
      match ratingOf ud u id1 with
      | none => none
      | some r1 =>
        match ratingOf ud u id2 with
        | none => none
        | some r2 => simFold ud id1 id2 users2 rest (acc.1 + pyAbs (r1 - r2), acc.2 + 1)
    else simFold ud id1 id2 users2 rest acc

/-- `Movie.compute_similarity`: average the absolute rating differences over
the co-raters found in `self.users`, then `1 - avg / 4.5`; `0` when the
counter stayed at zero. -/
def compute_similarity (self : Movie) (other_movie_id : Nat)
    (movie_dict : MovieDict) (user_dict : UserDict) : Option Rating :=
  match dlookup other_movie_id movie_dict with
  | none => none
  | some m2 =>
    match simFold user_dict self.id other_movie_id m2.users self.users (0, 0) with
    | none => none
    | some (total, count) =>
      some (if count = 0 then 0 else 1 - (total / (count : ℚ)) / (9 / 2))

/-- Python `movie.similarities[k] = v`: in-place insertion into the
similarity cache of a movie record. -/
def cacheIns (k : Nat) (v : Rating) (m : Movie) : Movie :=
  { m with similarities := dinsert k v m.similarities }

/-- `Movie.get_similarity`, with `self` resolved by key in `movie_dict`:
cache hit returns immediately; an unknown `other_movie_id` raises
`BadInputError`, which the surrounding `try` swallows, so the Python call
returns `None` (embedded as `some none`); otherwise the similarity is
computed and stored in both movies' caches.  Outer `none` is an uncaught
`KeyError`. -/
def get_similarity (self_id other_movie_id : Nat)
    (movie_dict : MovieDict) (user_dict : UserDict) :
    Option (Option Rating) × MovieDict :=
  match dlookup self_id movie_dict with
  | none => (none, movie_dict)
  | some self =>
    match dlookup other_movie_id self.similarities with
    | some v => (some (some v), movie_dict)
    | none =>
      match dlookup other_movie_id movie_dict with
      | none => (some none, movie_dict)
      | some _ =>
        match compute_similarity self other_movie_id movie_dict user_dict with
        | none => (none, movie_dict)
        | some v =>
          let md1 := mupdate self_id (cacheIns other_movie_id v) movie_dict
          let md2 := mupdate other_movie_id (cacheIns self.id v) md1
          (some (some v), md2)

/-- Python exceptions that can escape `predict_rating`. -/
inductive PyErr where
  | badInput
  | keyError
  | typeError
deriving DecidableEq, Repr

/-- The prediction loop of `Movie_Recommendations.predict_rating`: for each
movie the user has rated, `numerator += rating * get_similarity(...)` and
`denominator += get_similarity(...)` (the source calls `get_similarity`
twice per iteration; the second call hits the cache).  A Python `None`
coming back from `get_similarity` would make the arithmetic raise
`TypeError`. -/
def predLoop (target : Nat) (ud : UserDict) :
    List (Nat × Rating) → Rating → Rating → MovieDict →
    Except PyErr (Rating × Rating) × MovieDict
  | [], num, den, md => (Except.ok (num, den), md)
  | (movie, r) :: rest, num, den, md =>
    match get_similarity target movie md ud with
    | (none, md1) => (Except.error PyErr.keyError, md1)
    | (some none, md1) => (Except.error PyErr.typeError, md1)
    | (some (some s), md1) =>
      match get_similarity target movie md1 ud with
      | (none, md2) => (Except.error PyErr.keyError, md2)
      | (some none, md2) => (Except.error PyErr.typeError, md2)
      | (some (some s2), md2) => predLoop target ud rest (num + r * s) (den + s2) md2

/-- `Movie_Recommendations.predict_rating`: `BadInputError` for an unknown
user or movie; the user's stored rating if present; otherwise the weighted
average of the user's ratings by similarity to the target, with fallback
`2.5` when the denominator is zero. -/
def predict_rating (user_id movie_id : Nat) (md : MovieDict) (ud : UserDict) :
    Except PyErr Rating × MovieDict :=
  match dlookup user_id ud, dlookup movie_id md with
  | some ratings, some _ =>
    (match dlookup movie_id ratings with
     | some r => (Except.ok r, md)
     | none =>
       match predLoop movie_id ud ratings 0 0 md with
       | (Except.error e, md1) => (Except.error e, md1)
       | (Except.ok (num, den), md1) =>
         (Except.ok (if den = 0 then 5 / 2 else num / den), md1))
  | _, _ => (Except.error PyErr.badInput, md)

/-- `Movie_Recommendations.predict_ratings` on an already-parsed record list
`(user id, movie id, actual rating)`: one output tuple
`(user id, movie title, prediction, actual rating)` per record, in order;
any exception aborts the whole call. -/
def predict_ratings (records : List (Nat × Nat × Rating))
    (md : MovieDict) (ud : UserDict) :
    Except PyErr (List (Nat × String × Rating × Rating)) × MovieDict :=
  match records with
  | [] => (Except.ok [], md)
  | (u, m, actual) :: rest =>
    match predict_rating u m md ud with
    | (Except.error e, md1) => (Except.error e, md1)
    | (Except.ok p, md1) =>
      match dlookup m md1 with
      | none => (Except.error PyErr.keyError, md1)
      | some mv =>
        match predict_ratings rest md1 ud with
        | (Except.error e, md2) => (Except.error e, md2)
        | (Except.ok l, md2) => (Except.ok ((u, mv.title, p, actual) :: l), md2)

/-- Catalog invariant established at load time: every `Movie` object is
stored under the key equal to its `id` field. -/
def WF (md : MovieDict) : Prop :=
  ∀ i m, dlookup i md = some m → m.id = i

/-- The identity-relevant fields of a movie record, everything except the
similarity cache: id, title, rater list. -/
def strip (m : Movie) : Nat × String × List Nat :=
  (m.id, m.title, m.users)

/-- Two catalogs agree on membership and on every field except the
similarity caches. -/
def StripEq (md md2 : MovieDict) : Prop :=
  ∀ i, (dlookup i md2).map strip = (dlookup i md).map strip

/-- A successful lookup returns an entry of the list. -/
theorem dlookup_mem {α : Type} {k : Nat} {l : List (Nat × α)} {v : α}
    (h : dlookup k l = some v) : (k, v) ∈ l := by
  induction l with
  | nil => cases h
  | cons p t ih =>
    by_cases hk : p.1 = k
    · simp only [dlookup, hk, if_pos] at h
      injection h with h2
      obtain ⟨a, b⟩ := p
      cases hk
      cases h2
      exact List.mem_cons_self _ _
    · simp only [dlookup, hk, if_neg, not_false_iff] at h
      exact List.mem_cons_of_mem _ (ih h)

/-- A decidable sufficient condition for `WF`. -/
theorem WF_of_entries {md : MovieDict} (h : ∀ p ∈ md, p.2.id = p.1) : WF md :=
  fun i m hm => h (i, m) (dlookup_mem hm)

theorem dlookup_dinsert_self {α : Type} (k : Nat) (v : α) (l : List (Nat × α)) :
    dlookup k (dinsert k v l) = some v := by
  induction l with
  | nil => simp [dlookup, dinsert]
  | cons p t ih =>
    by_cases hk : p.1 = k
    · simp [dlookup, dinsert, hk]
    · simp [dlookup, dinsert, hk, ih]

theorem dlookup_dinsert_ne {α : Type} {j k : Nat} (hjk : j ≠ k) (v : α)
    (l : List (Nat × α)) : dlookup j (dinsert k v l) = dlookup j l := by
  have hkj : ¬k = j := fun h => hjk h.symm
  induction l with
  | nil => simp [dlookup, dinsert, hkj]
  | cons p t ih =>
    by_cases hk : p.1 = k
    · subst hk
      simp [dlookup, dinsert, hkj]
    · by_cases hj : p.1 = j
      · simp [dlookup, dinsert, hk, hj, hjk]
      · simp [dlookup, dinsert, hk, hj, ih]

theorem dlookup_mupdate_self (i : Nat) (f : Movie → Movie) (md : MovieDict) :
    dlookup i (mupdate i f md) = (dlookup i md).map f := by
  induction md with
  | nil => simp [dlookup, mupdate]
  | cons p t ih =>
    by_cases hk : p.1 = i
    · simp [dlookup, mupdate, hk]
    · simp [dlookup, mupdate, hk, ih]

theorem dlookup_mupdate_ne {j i : Nat} (hji : j ≠ i) (f : Movie → Movie)
    (md : MovieDict) : dlookup j (mupdate i f md) = dlookup j md := by
  have hij : ¬i = j := fun h => hji h.symm
  induction md with
  | nil => simp [dlookup, mupdate]
  | cons p t ih =>
    by_cases hk : p.1 = i
    · subst hk
      simp [dlookup, mupdate, hij]
    · by_cases hj : p.1 = j
      · simp [dlookup, mupdate, hk, hj, hji]
      · simp [dlookup, mupdate, hk, hj, ih]

theorem dlookup_eq_none_iff {α : Type} (k : Nat) (l : List (Nat × α)) :
    dlookup k l = none ↔ k ∉ l.map Prod.fst := by
  induction l with
  | nil => simp [dlookup]
  | cons p t ih =>
    by_cases hk : p.1 = k
    · simp [dlookup, hk]
    · have hk2 : ¬k = p.1 := fun h => hk h.symm
      simp [dlookup, hk, ih, hk2]

theorem stripEq_refl (md : MovieDict) : StripEq md md := fun _ => rfl

theorem stripEq_trans {md1 md2 md3 : MovieDict}
    (h1 : StripEq md1 md2) (h2 : StripEq md2 md3) : StripEq md1 md3 :=
  fun i => (h2 i).trans (h1 i)

theorem WF_of_stripEq {md md2 : MovieDict} (hwf : WF md) (hs : StripEq md md2) :
    WF md2 := by
  intro i m hm
  have h := hs i
  rw [hm] at h
  cases hmd : dlookup i md with
  | none => rw [hmd] at h; simp at h
  | some m0 =>
    rw [hmd] at h
    have h2 : strip m = strip m0 := by simpa using h
    have h3 : m.id = m0.id := congrArg Prod.fst h2
    rw [h3]
    exact hwf i m0 hmd

/-- Writing into a movie's similarity cache does not change its stripped view. -/
theorem strip_cacheIns (k : Nat) (v : Rating) (m : Movie) :
    strip (cacheIns k v m) = strip m := rfl

theorem stripEq_mupdate_cache (i k : Nat) (v : Rating) (md : MovieDict) :
    StripEq md (mupdate i (cacheIns k v) md) := by
  intro j
  by_cases hj : j = i
  · subst hj
    rw [dlookup_mupdate_self]
    cases dlookup j md <;> rfl
  · rw [dlookup_mupdate_ne hj]

/-- `get_similarity` changes nothing but similarity caches. -/
theorem get_similarity_stripEq (a b : Nat) (md : MovieDict) (ud : UserDict) :
    StripEq md (get_similarity a b md ud).2 := by
  cases ha : dlookup a md with
  | none =>
    simp only [get_similarity, ha]
    exact stripEq_refl md
  | some ma =>
    cases hc : dlookup b ma.similarities with
    | some v =>
      simp only [get_similarity, ha, hc]
      exact stripEq_refl md
    | none =>
      cases hb : dlookup b md with
      | none =>
        simp only [get_similarity, ha, hc, hb]
        exact stripEq_refl md
      | some mb =>
        cases hcs : compute_similarity ma b md ud with
        | none =>
          simp only [get_similarity, ha, hc, hb, hcs]
          exact stripEq_refl md
        | some v =>
          simp only [get_similarity, ha, hc, hb, hcs]
          exact stripEq_trans (stripEq_mupdate_cache a b v md)
            (stripEq_mupdate_cache b ma.id v _)

/-- The prediction loop changes nothing but similarity caches. -/
theorem predLoop_stripEq (target : Nat) (ud : UserDict) :
    ∀ (l : List (Nat × Rating)) (num den : Rating) (md : MovieDict),
      StripEq md (predLoop target ud l num den md).2 := by
  intro l
  induction l with
  | nil =>
    intro num den md
    simp only [predLoop]
    exact stripEq_refl md
  | cons p rest ih =>
    intro num den md
    obtain ⟨movie, r⟩ := p
    have h1 := get_similarity_stripEq target movie md ud
    rcases hg1 : get_similarity target movie md ud with ⟨o1, md1⟩
    rw [hg1] at h1
    cases o1 with
    | none =>
      simp only [predLoop, hg1]
      exact h1
    | some o1a =>
      cases o1a with
      | none =>
        simp only [predLoop, hg1]
        exact h1
      | some s =>
        have h2 := get_similarity_stripEq target movie md1 ud
        rcases hg2 : get_similarity target movie md1 ud with ⟨o2, md2⟩
        rw [hg2] at h2
        cases o2 with
        | none =>
          simp only [predLoop, hg1, hg2]
          exact stripEq_trans h1 h2
        | some o2a =>
          cases o2a with
          | none =>
            simp only [predLoop, hg1, hg2]
            exact stripEq_trans h1 h2
          | some s2 =>
            simp only [predLoop, hg1, hg2]
            exact stripEq_trans h1 (stripEq_trans h2 (ih (num + r * s) (den + s2) md2))

/-- `predict_rating` changes nothing but similarity caches. -/
theorem predict_rating_stripEq (u m : Nat) (md : MovieDict) (ud : UserDict) :
    StripEq md (predict_rating u m md ud).2 := by
  cases hu : dlookup u ud with
  | none =>
    simp only [predict_rating, hu]
    exact stripEq_refl md
  | some ratings =>
    cases hm : dlookup m md with
    | none =>
      simp only [predict_rating, hu, hm]
      exact stripEq_refl md
    | some mv =>
      cases hr : dlookup m ratings with
      | some r =>
        simp only [predict_rating, hu, hm, hr]
        exact stripEq_refl md
      | none =>
        have h := predLoop_stripEq m ud ratings 0 0 md
        rcases hp : predLoop m ud ratings 0 0 md with ⟨res, md1⟩
        rw [hp] at h
        cases res with
        | error e =>
          simp only [predict_rating, hu, hm, hr, hp]
          exact h
        | ok pr =>
          obtain ⟨num, den⟩ := pr
          simp only [predict_rating, hu, hm, hr, hp]
          exact h

/-- The prediction loop can fail only with `KeyError` or `TypeError`,
never with `BadInputError`. -/
theorem predLoop_fst_ne_badInput (target : Nat) (ud : UserDict) :
    ∀ (l : List (Nat × Rating)) (num den : Rating) (md : MovieDict),
      (predLoop target ud l num den md).1 ≠ Except.error PyErr.badInput := by
  intro l
  induction l with
  | nil =>
    intro num den md h
    simp [predLoop] at h
  | cons p rest ih =>
    intro num den md
    obtain ⟨movie, r⟩ := p
    rcases hg1 : get_similarity target movie md ud with ⟨o1, md1⟩
    cases o1 with
    | none => simp [predLoop, hg1]
    | some o1a =>
      cases o1a with
      | none => simp [predLoop, hg1]
      | some s =>
        rcases hg2 : get_similarity target movie md1 ud with ⟨o2, md2⟩
        cases o2 with
        | none => simp [predLoop, hg1, hg2]
        | some o2a =>
          cases o2a with
          | none => simp [predLoop, hg1, hg2]
          | some s2 =>
            simp only [predLoop, hg1, hg2]
            exact ih (num + r * s) (den + s2) md2

/-- The item catalog of the spec's round-trip scenario:
movies 1 "A" (rated by users 1, 2), 2 "B" (rated by users 1, 2),
3 "C" (rated by user 3), all caches empty as after load. -/
def mdS : MovieDict :=
  [(1, ⟨1, "A", [1, 2], []⟩), (2, ⟨2, "B", [1, 2], []⟩), (3, ⟨3, "C", [3], []⟩)]

/-- The rating store of the spec's round-trip scenario. -/
def udS : UserDict :=
  [(1, [(1, 5), (2, 3)]), (2, [(1, 4), (2, 2)]), (3, [(3, 1)])]

/-- Claim C3 (code_bug): item 99 is not in the catalog `mdS` and not in
movie 1's (empty) similarity cache, yet `get_similarity` returns the Python
`None` (`some none`) with no error surfaced: the internally raised
`BadInputError` is swallowed by the `except BadInputError: pass`,
contradicting the method's own docstring, which promises that an invalid
`other_movie_id` raises `BadInputError` to the caller. -/
theorem get_similarity_swallows_unknown_item :
    get_similarity 1 99 mdS udS = (some none, mdS) := by decide

/-- Claim C5 (confirmed): for a known user and known movie the user has
already rated, `predict_rating` returns exactly the stored rating, and the
whole catalog (hence every similarity cache) is returned untouched: the
exact-match branch is checked before any similarity computation. -/
theorem predict_rating_exact_match (u m : Nat) (md : MovieDict) (ud : UserDict)
    (ratings : UserRatings) (r : Rating)
    (hu : dlookup u ud = some ratings)
    (hm : (dlookup m md).isSome)
    (hr : dlookup m ratings = some r) :
    predict_rating u m md ud = (Except.ok r, md) := by
  obtain ⟨mv, hmv⟩ := Option.isSome_iff_exists.mp hm
  simp only [predict_rating, hu, hmv, hr]

theorem predict_rating_exact_match_witness :
    dlookup 1 udS = some [(1, 5), (2, 3)] ∧
      (dlookup 1 mdS).isSome ∧ dlookup 1 [((1 : Nat), (5 : Rating)), (2, 3)] = some 5 ∧
      predict_rating 1 1 mdS udS = (Except.ok 5, mdS) :=
  ⟨by decide, by decide, by decide,
    predict_rating_exact_match 1 1 mdS udS [(1, 5), (2, 3)] 5
      (by decide) (by decide) (by decide)⟩

/-- Claim C10 (confirmed): when the user has already rated the movie, the
`predict_rating` call leaves every item's similarity cache unchanged: the
returned catalog maps every id to the same similarity dictionary as before
(indeed the exact-match path returns the whole state unchanged). -/
theorem predict_rating_rated_preserves_caches (u m : Nat) (md : MovieDict)
    (ud : UserDict) (ratings : UserRatings) (r : Rating)
    (hu : dlookup u ud = some ratings)
    (hm : (dlookup m md).isSome)
    (hr : dlookup m ratings = some r) :
    ∀ i, (dlookup i (predict_rating u m md ud).2).map Movie.similarities =
      (dlookup i md).map Movie.similarities := by
  obtain ⟨mv, hmv⟩ := Option.isSome_iff_exists.mp hm
  intro i
  simp only [predict_rating, hu, hmv, hr]

theorem predict_rating_rated_preserves_caches_witness :
    dlookup 2 udS = some [(1, 4), (2, 2)] ∧
      (dlookup 2 mdS).isSome ∧ dlookup 2 [((1 : Nat), (4 : Rating)), (2, 2)] = some 2 ∧
      ∀ i, (dlookup i (predict_rating 2 2 mdS udS).2).map Movie.similarities =
        (dlookup i mdS).map Movie.similarities :=
  ⟨by decide, by decide, by decide,
    predict_rating_rated_preserves_caches 2 2 mdS udS [(1, 4), (2, 2)] 2
      (by decide) (by decide) (by decide)⟩

/-- Claim C6 (confirmed): `predict_rating` fails with `BadInputError`
exactly when the user is unknown to the rating store or the movie is
unknown to the catalog; whenever both are present, `BadInputError` is never
raised (any failure of the inner loop on ill-formed state would be a
`KeyError` or `TypeError`, not `BadInputError`). -/
theorem predict_rating_badInput_iff (u m : Nat) (md : MovieDict) (ud : UserDict) :
    (predict_rating u m md ud).1 = Except.error PyErr.badInput ↔
      dlookup u ud = none ∨ dlookup m md = none := by
  cases hu : dlookup u ud with
  | none => simp [predict_rating, hu]
  | some ratings =>
    cases hm : dlookup m md with
    | none => simp [predict_rating, hu, hm]
    | some mv =>
      constructor
      · intro h
        exfalso
        cases hr : dlookup m ratings with
        | some r =>
          simp [predict_rating, hu, hm, hr] at h
        | none =>
          rcases hp : predLoop m ud ratings 0 0 md with ⟨res, md1⟩
          have hne := predLoop_fst_ne_badInput m ud ratings 0 0 md
          rw [hp] at hne
          cases res with
          | error e =>
            simp only [predict_rating, hu, hm, hr, hp] at h
            exact hne (by simpa using h)
          | ok pr =>
            obtain ⟨num, den⟩ := pr
            simp [predict_rating, hu, hm, hr, hp] at h
      · rintro (h | h) <;> simp_all

/-- Claim C8 (confirmed): `predict_rating` and `get_similarity` preserve the
membership of the item catalog and, for every item, its id, title, and
rater list: the returned catalog agrees with the input catalog everywhere
except possibly the similarity cache field of item records (`StripEq`).
The rating store is not written at all by either operation: in the source
neither function ever assigns into `user_dict`, which the embedding
reflects by the operations returning only the updated catalog. -/
theorem engines_preserve_store_membership :
    (∀ (u m : Nat) (md : MovieDict) (ud : UserDict),
        StripEq md (predict_rating u m md ud).2) ∧
    (∀ (a b : Nat) (md : MovieDict) (ud : UserDict),
        StripEq md (get_similarity a b md ud).2) :=
  ⟨predict_rating_stripEq, get_similarity_stripEq⟩

/-- Evaluation of the similarity loop when every co-rater has both ratings:
it accumulates the sum of absolute differences over the *occurrences* in
`l` of raters also present in `users2` (multiplicity preserved), and counts
those occurrences. -/
theorem simFold_eval (ud : UserDict) (id1 id2 : Nat) (users2 : List Nat) :
    ∀ (l : List Nat) (t : Rating) (c : Nat),
      (∀ u ∈ l, u ∈ users2 →
        (ratingOf ud u id1).isSome ∧ (ratingOf ud u id2).isSome) →
      simFold ud id1 id2 users2 l (t, c) =
        some (t + ((l.filter (fun u => decide (u ∈ users2))).map
            (fun u => pyAbs ((ratingOf ud u id1).getD 0 - (ratingOf ud u id2).getD 0))).sum,
          c + (l.filter (fun u => decide (u ∈ users2))).length) := by
  intro l
  induction l with
  | nil =>
    intro t c _
    simp [simFold]
  | cons u rest ih =>
    intro t c h
    by_cases hm : u ∈ users2
    · obtain ⟨h1, h2⟩ := h u (List.mem_cons_self u rest) hm
      obtain ⟨r1, hr1⟩ := Option.isSome_iff_exists.mp h1
      obtain ⟨r2, hr2⟩ := Option.isSome_iff_exists.mp h2
      have hrest : ∀ u2 ∈ rest, u2 ∈ users2 →
          (ratingOf ud u2 id1).isSome ∧ (ratingOf ud u2 id2).isSome :=
        fun u2 hu2 => h u2 (List.mem_cons_of_mem u hu2)
      simp only [simFold, if_pos hm, hr1, hr2]
      rw [ih (t + pyAbs (r1 - r2)) (c + 1) hrest]
      rw [List.filter_cons_of_pos (by simpa using hm)]
      simp only [List.map_cons, List.sum_cons, List.length_cons, hr1, hr2,
        Option.getD_some, Option.some.injEq, Prod.mk.injEq]
      constructor
      · ring
      · omega
    · have hrest : ∀ u2 ∈ rest, u2 ∈ users2 →
          (ratingOf ud u2 id1).isSome ∧ (ratingOf ud u2 id2).isSome :=
        fun u2 hu2 => h u2 (List.mem_cons_of_mem u hu2)
      simp only [simFold, if_neg hm]
      rw [ih t c hrest]
      rw [List.filter_cons_of_neg (by simpa using hm)]

/-- The running total of the similarity loop never decreases and stays
nonnegative when started nonnegative. -/
theorem simFold_nonneg (ud : UserDict) (id1 id2 : Nat) (users2 : List Nat) :
    ∀ (l : List Nat) (t : Rating) (c : Nat) (t2 : Rating) (c2 : Nat),
      simFold ud id1 id2 users2 l (t, c) = some (t2, c2) → 0 ≤ t → 0 ≤ t2 := by
  intro l
  induction l with
  | nil =>
    intro t c t2 c2 h ht
    rw [simFold] at h
    injection h with h
    have h1 : t = t2 := congrArg Prod.fst h
    rw [← h1]
    exact ht
  | cons u rest ih =>
    intro t c t2 c2 h ht
    by_cases hm : u ∈ users2
    · simp only [simFold, if_pos hm] at h
      cases hr1 : ratingOf ud u id1 with
      | none => simp [hr1] at h
      | some r1 =>
        cases hr2 : ratingOf ud u id2 with
        | none => simp [hr1, hr2] at h
        | some r2 =>
          simp only [hr1, hr2] at h
          exact ih (t + pyAbs (r1 - r2)) (c + 1) t2 c2 h
            (add_nonneg ht (pyAbs_nonneg _))
    · simp only [simFold, if_neg hm] at h
      exact ih t c t2 c2 h ht

/-- If no rater of the first movie also rates the second, the similarity
loop returns its accumulator unchanged. -/
theorem simFold_no_common (ud : UserDict) (id1 id2 : Nat) (users2 : List Nat) :
    ∀ (l : List Nat) (acc : Rating × Nat),
      (∀ u ∈ l, u ∉ users2) → simFold ud id1 id2 users2 l acc = some acc := by
  intro l
  induction l with
  | nil =>
    intro acc _
    rw [simFold]
  | cons u rest ih =>
    intro acc h
    rw [simFold, if_neg (h u (List.mem_cons_self u rest))]
    exact ih acc fun u2 hu2 => h u2 (List.mem_cons_of_mem u hu2)

/-- The set-average similarity that claim C1 describes: average the
absolute rating differences over the *set* intersection of the two rater
collections (duplicates removed), `0` when that intersection is empty,
otherwise `1 - average / 4.5`. -/
def specSimilarity (mA mB : Movie) (ud : UserDict) : ℚ :=
  let inter := (mA.users.filter (fun u => decide (u ∈ mB.users))).dedup
  if inter = [] then 0
  else 1 - ((inter.map (fun u =>
      pyAbs ((ratingOf ud u mA.id).getD 0 - (ratingOf ud u mB.id).getD 0))).sum
      / (inter.length : ℚ)) / (9 / 2)

/-- A catalog in which movie 1's rater list holds user 1 twice (the same
(user, movie) rating record appeared twice in the training input, which the
loader does not deduplicate). -/
def mdD : MovieDict :=
  [(1, ⟨1, "A", [1, 1, 2], []⟩), (2, ⟨2, "B", [1, 2], []⟩)]

/-- Ratings for the duplicate-rater catalog: user 1 rates both movies 5,
user 2 rates movie 1 at 0.5 and movie 2 at 5. -/
def udD : UserDict :=
  [(1, [(1, 5), (2, 5)]), (2, [(1, 1 / 2), (2, 5)])]

/-- Claim C1 (counterexample): with user 1 occurring twice in movie 1's
rater list, the code averages the absolute differences with multiplicity
(`(0 + 0 + 4.5) / 3`, similarity `2/3`), while the claimed average over the
rater-set intersection is `(0 + 4.5) / 2` (similarity `1/2`), so the claim
as stated fails on this reachable state. -/
theorem compute_similarity_duplicates_counterexample :
    compute_similarity ⟨1, "A", [1, 1, 2], []⟩ 2 mdD udD = some (2 / 3) ∧
      specSimilarity ⟨1, "A", [1, 1, 2], []⟩ ⟨2, "B", [1, 2], []⟩ udD = 1 / 2 ∧
      ((2 : ℚ) / 3) ≠ 1 / 2 := by
  refine ⟨?_, ?_, by norm_num⟩
  · norm_num [compute_similarity, mdD, udD, dlookup, simFold, ratingOf, pyAbs]
  · norm_num [specSimilarity, mdD, udD, dlookup, ratingOf, pyAbs,
      List.dedup_cons_of_mem, List.dedup_cons_of_not_mem]
    decide

/-- Claim C1 (corrected): when the calling movie's rater list has no
duplicate entries (so occurrence-counting and set intersection coincide),
`compute_similarity` returns `1 - (set-average absolute difference) / 4.5`
over the rater intersection, and `0` when the intersection is empty - both
cases are packaged in `specSimilarity`.  Hypotheses: the other movie is in
the catalog under its own id, and every common rater has both ratings. -/
theorem compute_similarity_matches_set_average (mA : Movie) (b : Nat)
    (mB : Movie) (md : MovieDict) (ud : UserDict)
    (hb : dlookup b md = some mB) (hid : mB.id = b)
    (hnd : mA.users.Nodup)
    (hr : ∀ u ∈ mA.users, u ∈ mB.users →
      (ratingOf ud u mA.id).isSome ∧ (ratingOf ud u b).isSome) :
    compute_similarity mA b md ud = some (specSimilarity mA mB ud) := by
  have hdedup : (mA.users.filter (fun u => decide (u ∈ mB.users))).dedup
      = mA.users.filter (fun u => decide (u ∈ mB.users)) :=
    List.dedup_eq_self.mpr (hnd.filter _)
  simp only [compute_similarity, hb,
    simFold_eval ud mA.id b mB.users mA.users 0 0 hr, zero_add,
    specSimilarity, hdedup, hid]
  by_cases hF : mA.users.filter (fun u => decide (u ∈ mB.users)) = []
  · simp [hF]
  · have hlen : (mA.users.filter (fun u => decide (u ∈ mB.users))).length ≠ 0 :=
      fun hc => hF (List.length_eq_zero.mp hc)
    rw [if_neg hlen, if_neg hF]

/-- Claim C9 (confirmed): any value `compute_similarity` returns is at most
1: it is `0` when the two movies have no common rater, and otherwise
`1 - avg / 4.5` where the average of absolute differences is nonnegative.
No lower bound is claimed. -/
theorem compute_similarity_le_one (self : Movie) (b : Nat) (m2 : Movie)
    (md : MovieDict) (ud : UserDict) (v : Rating)
    (hb : dlookup b md = some m2)
    (h : compute_similarity self b md ud = some v) :
    v ≤ 1 ∧ ((∀ u ∈ self.users, u ∉ m2.users) → v = 0) := by
  rw [compute_similarity] at h
  split at h
  · simp at h
  · rename_i m2b heq
    rw [hb] at heq
    injection heq with heq
    subst heq
    split at h
    · simp at h
    · rename_i t c hsf
      simp only [Option.some.injEq] at h
      constructor
      · by_cases hc : c = 0
        · rw [← h, if_pos hc]
          norm_num
        · rw [← h, if_neg hc]
          have ht : (0 : ℚ) ≤ t :=
            simFold_nonneg ud self.id b m2.users self.users 0 0 t c hsf le_rfl
          have hcq : (0 : ℚ) < (c : ℚ) := by
            exact_mod_cast Nat.pos_of_ne_zero hc
          have hdiv : 0 ≤ (t / (c : ℚ)) / (9 / 2) := by positivity
          linarith
      · intro hno
        have h0 := simFold_no_common ud self.id b m2.users self.users (0, 0) hno
        rw [h0] at hsf
        injection hsf with hsf
        have hc : c = 0 := (congrArg Prod.snd hsf).symm
        rw [← h, if_pos hc]

theorem compute_similarity_le_one_witness :
    dlookup 2 mdS = some ⟨2, "B", [1, 2], []⟩ ∧
      compute_similarity ⟨1, "A", [1, 2], []⟩ 2 mdS udS = some (5 / 9) ∧
      ((5 : ℚ) / 9 ≤ 1 ∧
        ((∀ u ∈ [1, 2], u ∉ ([1, 2] : List Nat)) → (5 : ℚ) / 9 = 0)) :=
  ⟨by decide,
    by norm_num [compute_similarity, mdS, udS, dlookup, simFold, ratingOf, pyAbs],
    compute_similarity_le_one ⟨1, "A", [1, 2], []⟩ 2 ⟨2, "B", [1, 2], []⟩ mdS udS
      (5 / 9) (by decide)
      (by norm_num [compute_similarity, mdS, udS, dlookup, simFold, ratingOf, pyAbs])⟩

/-- `StripEq` catalogs agree on every movie's rater list. -/
theorem stripEq_users {md md2 : MovieDict} (hs : StripEq md md2) (i : Nat) :
    (dlookup i md2).map Movie.users = (dlookup i md).map Movie.users := by
  have h := hs i
  cases h1 : dlookup i md with
  | none =>
    rw [h1] at h
    cases h2 : dlookup i md2 with
    | none => rfl
    | some m2 => rw [h2] at h; simp at h
  | some m1 =>
    rw [h1] at h
    cases h2 : dlookup i md2 with
    | none => rw [h2] at h; simp at h
    | some m2 =>
      rw [h2] at h
      have h3 : strip m2 = strip m1 := by simpa using h
      have h4 : m2.users = m1.users := congrArg (fun q => q.2.2) h3
      simp [h4]

/-- A `StripEq` catalog resolves a key to a movie with the same id, title
and rater list. -/
theorem stripEq_lookup {md md2 : MovieDict} {i : Nat} {mv : Movie}
    (hs : StripEq md md2) (h : dlookup i md = some mv) :
    ∃ mv2, dlookup i md2 = some mv2 ∧ mv2.id = mv.id ∧ mv2.title = mv.title ∧
      mv2.users = mv.users := by
  have hh := hs i
  rw [h] at hh
  cases h2 : dlookup i md2 with
  | none => rw [h2] at hh; simp at hh
  | some mv2 =>
    rw [h2] at hh
    have h3 : strip mv2 = strip mv := by simpa using hh
    exact ⟨mv2, rfl, congrArg (fun q => q.1) h3,
      congrArg (fun q => q.2.1) h3, congrArg (fun q => q.2.2) h3⟩

/-- A lookup in the second of two `StripEq` catalogs is matched in the
first by a movie with the same id, title and rater list. -/
theorem stripEq_lookup_rev {md md2 : MovieDict} {i : Nat} {mv2 : Movie}
    (hs : StripEq md md2) (h : dlookup i md2 = some mv2) :
    ∃ mv, dlookup i md = some mv ∧ mv2.id = mv.id ∧ mv2.title = mv.title ∧
      mv2.users = mv.users := by
  have hh := hs i
  rw [h] at hh
  cases h2 : dlookup i md with
  | none => rw [h2] at hh; simp at hh
  | some mv =>
    rw [h2] at hh
    have h3 : strip mv2 = strip mv := by simpa using hh
    exact ⟨mv, rfl, congrArg (fun q => q.1) h3,
      congrArg (fun q => q.2.1) h3, congrArg (fun q => q.2.2) h3⟩

/-- `compute_similarity` depends only on the calling movie's id and rater
list, the other movie's rater list, and the rating store. -/
theorem compute_similarity_congr (ma ma2 : Movie) (b : Nat) (md md2 : MovieDict)
    (ud : UserDict) (m2 m2b : Movie)
    (hid : ma2.id = ma.id) (hus : ma2.users = ma.users)
    (hbm : dlookup b md = some m2) (hbm2 : dlookup b md2 = some m2b)
    (huse : m2b.users = m2.users) :
    compute_similarity ma2 b md2 ud = compute_similarity ma b md ud := by
  simp only [compute_similarity, hbm, hbm2, hid, hus, huse]

/-- The value returned by `get_similarity` depends only on the calling
movie's id, rater list and cache entry for `b`, and the other movie's
rater list (not on any other cache contents). -/
theorem get_similarity_fst_congr (a b : Nat) (md md2 : MovieDict) (ud : UserDict)
    (ma ma2 : Movie)
    (ha : dlookup a md = some ma) (ha2 : dlookup a md2 = some ma2)
    (hid : ma2.id = ma.id) (hus : ma2.users = ma.users)
    (hcac : dlookup b ma2.similarities = dlookup b ma.similarities)
    (hbu : (dlookup b md2).map Movie.users = (dlookup b md).map Movie.users) :
    (get_similarity a b md2 ud).1 = (get_similarity a b md ud).1 := by
  cases hcb : dlookup b ma.similarities with
  | some v =>
    have hcb2 : dlookup b ma2.similarities = some v := by rw [hcac, hcb]
    simp only [get_similarity, ha, ha2, hcb, hcb2]
  | none =>
    have hcb2 : dlookup b ma2.similarities = none := by rw [hcac, hcb]
    cases hbm : dlookup b md with
    | none =>
      have hbm2 : dlookup b md2 = none := by
        rw [hbm] at hbu
        simpa using hbu
      simp only [get_similarity, ha, ha2, hcb, hcb2, hbm, hbm2]
    | some m2 =>
      cases hbm2 : dlookup b md2 with
      | none =>
        rw [hbm, hbm2] at hbu
        simp at hbu
      | some m2b =>
        have huse : m2b.users = m2.users := by
          rw [hbm, hbm2] at hbu
          simpa using hbu
        have hcs := compute_similarity_congr ma ma2 b md md2 ud m2 m2b hid hus hbm hbm2 huse
        cases hcv : compute_similarity ma b md ud with
        | none =>
          have hcv2 : compute_similarity ma2 b md2 ud = none := by rw [hcs, hcv]
          simp only [get_similarity, ha, ha2, hcb, hcb2, hbm, hbm2, hcv, hcv2]
        | some v =>
          have hcv2 : compute_similarity ma2 b md2 ud = some v := by rw [hcs, hcv]
          simp only [get_similarity, ha, ha2, hcb, hcb2, hbm, hbm2, hcv, hcv2]

/-- `get_similarity a b` leaves movie `a`'s cache entries at keys other
than `b` unchanged (for distinct movies `a` and `b`). -/
theorem get_similarity_cache_other (a b j : Nat) (md : MovieDict) (ud : UserDict)
    (hab : a ≠ b) (hjb : j ≠ b) :
    (dlookup a (get_similarity a b md ud).2).map (fun mv => dlookup j mv.similarities) =
      (dlookup a md).map (fun mv => dlookup j mv.similarities) := by
  cases ha : dlookup a md with
  | none => simp only [get_similarity, ha]
  | some ma =>
    cases hcb : dlookup b ma.similarities with
    | some v => simp only [get_similarity, ha, hcb]
    | none =>
      cases hbm : dlookup b md with
      | none => simp only [get_similarity, ha, hcb, hbm]
      | some mb =>
        cases hcs : compute_similarity ma b md ud with
        | none => simp only [get_similarity, ha, hcb, hbm, hcs]
        | some v =>
          simp only [get_similarity, ha, hcb, hbm, hcs]
          rw [dlookup_mupdate_ne hab, dlookup_mupdate_self, ha]
          simp [cacheIns, dlookup_dinsert_ne hjb]

/-- A successful `get_similarity` call is idempotent: rerunning it on the
updated catalog hits the cache, returns the same value and changes
nothing (distinct movies). -/
theorem get_similarity_idem (a b : Nat) (md : MovieDict) (ud : UserDict)
    (v : Rating) (md2 : MovieDict) (hab : a ≠ b)
    (h : get_similarity a b md ud = (some (some v), md2)) :
    get_similarity a b md2 ud = (some (some v), md2) := by
  rw [get_similarity] at h
  split at h
  · simp at h
  · rename_i self heq1
    split at h
    · rename_i v0 heqc
      injection h with h1 h2
      injection h1 with h1
      injection h1 with h1
      subst h1
      subst h2
      simp only [get_similarity, heq1, heqc]
    · rename_i heqc
      split at h
      · simp at h
      · rename_i mb heqb
        split at h
        · simp at h
        · rename_i v0 heqcs
          injection h with h1 h2
          injection h1 with h1
          injection h1 with h1
          subst h1
          subst h2
          have ha2 : dlookup a (mupdate b (cacheIns self.id v0)
              (mupdate a (cacheIns b v0) md)) = some (cacheIns b v0 self) := by
            rw [dlookup_mupdate_ne hab, dlookup_mupdate_self, heq1]
            rfl
          have hcache : dlookup b (cacheIns b v0 self).similarities = some v0 := by
            rw [cacheIns]
            exact dlookup_dinsert_self b v0 _
          simp only [get_similarity, ha2, hcache]

/-- Evaluation of the prediction loop.  `md0` is the catalog at loop entry,
`mdk` the current catalog; provided the two agree on everything but caches
and on the target's cache at the remaining keys, the keys are distinct
dictionary keys not containing the target, and every similarity (evaluated
against the entry catalog) succeeds, the loop accumulates the weighted sum
of ratings and the sum of similarities. -/
theorem predLoop_eval (m : Nat) (ud : UserDict) :
    ∀ (l : List (Nat × Rating)) (mdk : MovieDict) (num den : Rating)
      (sims : List Rating) (md0 : MovieDict),
      StripEq md0 mdk →
      (∀ p ∈ l, (dlookup m mdk).map (fun mv => dlookup p.1 mv.similarities) =
        (dlookup m md0).map (fun mv => dlookup p.1 mv.similarities)) →
      (l.map Prod.fst).Nodup →
      m ∉ l.map Prod.fst →
      List.Forall₂ (fun (p : Nat × Rating) (s : Rating) =>
        (get_similarity m p.1 md0 ud).1 = some (some s)) l sims →
      ∃ mdf, predLoop m ud l num den mdk =
        (Except.ok (num + (List.zipWith (fun (p : Nat × Rating) s => p.2 * s) l sims).sum,
          den + sims.sum), mdf) := by
  intro l
  induction l with
  | nil =>
    intro mdk num den sims md0 _ _ _ _ hF
    cases hF
    exact ⟨mdk, by simp [predLoop]⟩
  | cons p rest ih =>
    intro mdk num den sims md0 hstrip hcac hnd hnm hF
    obtain ⟨movie, r⟩ := p
    cases hF
    rename_i s srest hhead htail
    rw [List.map_cons] at hnd hnm
    have hmovie_rest : movie ∉ rest.map Prod.fst := (List.nodup_cons.mp hnd).1
    have hnd2 : (rest.map Prod.fst).Nodup := (List.nodup_cons.mp hnd).2
    have hm_ne : m ≠ movie := fun h => hnm (h ▸ List.mem_cons_self movie _)
    have hnm2 : m ∉ rest.map Prod.fst := fun h => hnm (List.mem_cons_of_mem movie h)
    cases hm0 : dlookup m md0 with
    | none =>
      simp [get_similarity, hm0] at hhead
    | some mv0 =>
      obtain ⟨mvk, hmk, hkid, _, hkusers⟩ := stripEq_lookup hstrip hm0
      have hcachehead : dlookup movie mvk.similarities = dlookup movie mv0.similarities := by
        have hcc := hcac (movie, r) (List.mem_cons_self _ _)
        rw [hmk, hm0] at hcc
        simpa using hcc
      have hfst : (get_similarity m movie mdk ud).1 = (get_similarity m movie md0 ud).1 :=
        get_similarity_fst_congr m movie md0 mdk ud mv0 mvk hm0 hmk hkid hkusers
          hcachehead (stripEq_users hstrip movie)
      rcases hg1 : get_similarity m movie mdk ud with ⟨o1, mdk1⟩
      have ho1 : o1 = some (some s) := by
        have h2 := hfst.trans hhead
        rw [hg1] at h2
        simpa using h2
      subst ho1
      have hidem := get_similarity_idem m movie mdk ud s mdk1 hm_ne hg1
      have hstrip_step := get_similarity_stripEq m movie mdk ud
      rw [hg1] at hstrip_step
      have hstrip1 : StripEq md0 mdk1 := stripEq_trans hstrip hstrip_step
      have hcac1 : ∀ p ∈ rest,
          (dlookup m mdk1).map (fun mv => dlookup p.1 mv.similarities) =
            (dlookup m md0).map (fun mv => dlookup p.1 mv.similarities) := by
        intro p hp
        have hp1ne : p.1 ≠ movie := fun h =>
          hmovie_rest (h ▸ List.mem_map_of_mem Prod.fst hp)
        have hco := get_similarity_cache_other m movie p.1 mdk ud hm_ne hp1ne
        rw [hg1] at hco
        exact hco.trans (hcac p (List.mem_cons_of_mem _ hp))
      obtain ⟨mdf, hloop⟩ := ih mdk1 (num + r * s) (den + s) srest md0
        hstrip1 hcac1 hnd2 hnm2 htail
      refine ⟨mdf, ?_⟩
      simp only [predLoop, hg1, hidem, hloop, List.zipWith_cons_cons, List.sum_cons]
      simp [add_assoc]

/-- Claim C2 (confirmed): for a known user and known movie not yet rated by
the user, `predict_rating` returns the weighted average of the user's
ratings, each weighted by the similarity between the rated movie and the
target (as `get_similarity` computes it in the entry state), i.e.
`Σ rating·sim / Σ sim`, and returns exactly `2.5` when the sum of the
similarities is zero.  `sims` lists the similarity of each rated movie to
the target; keys of a Python dict are distinct, whence the `Nodup`
hypothesis. -/
theorem predict_rating_weighted_average (u m : Nat) (md : MovieDict)
    (ud : UserDict) (ratings : UserRatings) (sims : List Rating)
    (hu : dlookup u ud = some ratings)
    (hm : (dlookup m md).isSome)
    (hnr : dlookup m ratings = none)
    (hnd : (ratings.map Prod.fst).Nodup)
    (hsims : List.Forall₂ (fun (p : Nat × Rating) (s : Rating) =>
      (get_similarity m p.1 md ud).1 = some (some s)) ratings sims) :
    (predict_rating u m md ud).1 =
      Except.ok (if sims.sum = 0 then 5 / 2
        else (List.zipWith (fun (p : Nat × Rating) s => p.2 * s) ratings sims).sum
          / sims.sum) := by
  obtain ⟨mv, hmv⟩ := Option.isSome_iff_exists.mp hm
  have hnm : m ∉ ratings.map Prod.fst := (dlookup_eq_none_iff m ratings).mp hnr
  obtain ⟨mdf, hloop⟩ := predLoop_eval m ud ratings md 0 0 sims md
    (stripEq_refl md) (fun p _ => rfl) hnd hnm hsims
  simp only [predict_rating, hu, hmv, hnr, hloop, zero_add]

theorem predict_rating_weighted_average_witness :
    dlookup 1 udS = some [(1, 5), (2, 3)] ∧
      (dlookup 3 mdS).isSome ∧
      dlookup 3 [((1 : Nat), (5 : Rating)), (2, 3)] = none ∧
      (([((1 : Nat), (5 : Rating)), (2, 3)]).map Prod.fst).Nodup ∧
      List.Forall₂ (fun (p : Nat × Rating) (s : Rating) =>
        (get_similarity 3 p.1 mdS udS).1 = some (some s))
        [(1, 5), (2, 3)] [0, 0] ∧
      (predict_rating 1 3 mdS udS).1 =
        Except.ok (if ([(0 : Rating), 0]).sum = 0 then 5 / 2
          else (List.zipWith (fun (p : Nat × Rating) s => p.2 * s)
            [(1, 5), (2, 3)] [0, 0]).sum / ([(0 : Rating), 0]).sum) :=
  ⟨by decide, by decide, by decide, by decide,
    List.Forall₂.cons (by decide) (List.Forall₂.cons (by decide) List.Forall₂.nil),
    predict_rating_weighted_average 1 3 mdS udS [(1, 5), (2, 3)] [0, 0]
      (by decide) (by decide) (by decide) (by decide)
      (List.Forall₂.cons (by decide) (List.Forall₂.cons (by decide) List.Forall₂.nil))⟩

/-- Claim C4 (confirmed): for a pair of catalog movies whose similarity is
not yet cached on the calling side, the first `get_similarity` call
computes the value once and stores the identical value in both movies'
caches under each other's key; the subsequent call in the opposite
direction returns that cached value with the state unchanged (no
recomputation), so the two directions agree. -/
theorem get_similarity_symmetric_memoization (a b : Nat) (md : MovieDict)
    (ud : UserDict) (ma mb : Movie) (v : Rating)
    (hwf : WF md)
    (ha : dlookup a md = some ma) (hb : dlookup b md = some mb)
    (hfa : dlookup b ma.similarities = none)
    (hc : compute_similarity ma b md ud = some v) :
    ∃ md2, get_similarity a b md ud = (some (some v), md2) ∧
      (∃ ma2, dlookup a md2 = some ma2 ∧ dlookup b ma2.similarities = some v) ∧
      (∃ mb2, dlookup b md2 = some mb2 ∧ dlookup a mb2.similarities = some v) ∧
      get_similarity b a md2 ud = (some (some v), md2) := by
  have maid : ma.id = a := hwf a ma ha
  have hgs : get_similarity a b md ud =
      (some (some v), mupdate b (cacheIns ma.id v) (mupdate a (cacheIns b v) md)) := by
    simp only [get_similarity, ha, hfa, hb, hc]
  by_cases hab : a = b
  · subst hab
    rw [ha] at hb
    injection hb with hb
    subst hb
    refine ⟨_, hgs, ?_, ?_, ?_⟩
    · refine ⟨cacheIns ma.id v (cacheIns a v ma), ?_, ?_⟩
      · rw [dlookup_mupdate_self, dlookup_mupdate_self, ha]
        rfl
      · rw [maid, cacheIns]
        exact dlookup_dinsert_self a v _
    · refine ⟨cacheIns ma.id v (cacheIns a v ma), ?_, ?_⟩
      · rw [dlookup_mupdate_self, dlookup_mupdate_self, ha]
        rfl
      · rw [maid, cacheIns]
        exact dlookup_dinsert_self a v _
    · have hl : dlookup a (mupdate a (cacheIns ma.id v) (mupdate a (cacheIns a v) md)) =
          some (cacheIns ma.id v (cacheIns a v ma)) := by
        rw [dlookup_mupdate_self, dlookup_mupdate_self, ha]
        rfl
      have hcache : dlookup a (cacheIns ma.id v (cacheIns a v ma)).similarities = some v := by
        rw [maid, cacheIns]
        exact dlookup_dinsert_self a v _
      simp only [get_similarity, hl, hcache]
  · have hba : ¬b = a := fun h => hab h.symm
    have hl1 : dlookup a (mupdate b (cacheIns ma.id v) (mupdate a (cacheIns b v) md)) =
        some (cacheIns b v ma) := by
      rw [dlookup_mupdate_ne hab, dlookup_mupdate_self, ha]
      rfl
    have hl2 : dlookup b (mupdate b (cacheIns ma.id v) (mupdate a (cacheIns b v) md)) =
        some (cacheIns ma.id v mb) := by
      rw [dlookup_mupdate_self, dlookup_mupdate_ne hba, hb]
      rfl
    have hc1 : dlookup b (cacheIns b v ma).similarities = some v := by
      rw [cacheIns]
      exact dlookup_dinsert_self b v _
    have hc2 : dlookup a (cacheIns ma.id v mb).similarities = some v := by
      rw [maid, cacheIns]
      exact dlookup_dinsert_self a v _
    refine ⟨_, hgs, ⟨_, hl1, hc1⟩, ⟨_, hl2, hc2⟩, ?_⟩
    simp only [get_similarity, hl2, hc2]

theorem get_similarity_symmetric_memoization_witness :
    WF mdS ∧ dlookup 1 mdS = some ⟨1, "A", [1, 2], []⟩ ∧
      dlookup 2 mdS = some ⟨2, "B", [1, 2], []⟩ ∧
      dlookup 2 (⟨1, "A", [1, 2], ([] : List (Nat × Rating))⟩ : Movie).similarities = none ∧
      compute_similarity ⟨1, "A", [1, 2], []⟩ 2 mdS udS = some (5 / 9) ∧
      (∃ md2, get_similarity 1 2 mdS udS = (some (some (5 / 9)), md2) ∧
        (∃ ma2, dlookup 1 md2 = some ma2 ∧ dlookup 2 ma2.similarities = some (5 / 9)) ∧
        (∃ mb2, dlookup 2 md2 = some mb2 ∧ dlookup 1 mb2.similarities = some (5 / 9)) ∧
        get_similarity 2 1 md2 udS = (some (some (5 / 9)), md2)) :=
  ⟨WF_of_entries (by decide), by decide, by decide, by decide,
    by norm_num [compute_similarity, mdS, udS, dlookup, simFold, ratingOf, pyAbs],
    get_similarity_symmetric_memoization 1 2 mdS udS ⟨1, "A", [1, 2], []⟩
      ⟨2, "B", [1, 2], []⟩ (5 / 9) (WF_of_entries (by decide)) (by decide) (by decide)
      (by decide)
      (by norm_num [compute_similarity, mdS, udS, dlookup, simFold, ratingOf, pyAbs])⟩

/-- Claim C7 (confirmed): a successful batch prediction returns one output
tuple per input record, in order (`Forall₂` forces equal length and
positional correspondence): the record's user id, the catalog title of the
record's movie (the title in the input catalog - titles are never
modified), the value `predict_rating` returned for that user and movie in
the state the batch had reached (a state that agrees with the input
catalog on everything except similarity caches), and the record's actual
rating. -/
theorem predict_ratings_shape (records : List (Nat × Nat × Rating))
    (md : MovieDict) (ud : UserDict)
    (l : List (Nat × String × Rating × Rating)) (md2 : MovieDict)
    (h : predict_ratings records md ud = (Except.ok l, md2)) :
    List.Forall₂
      (fun (rec : Nat × Nat × Rating) (out : Nat × String × Rating × Rating) =>
        ∃ mdi mv p, StripEq md mdi ∧
          dlookup rec.2.1 md = some mv ∧
          (predict_rating rec.1 rec.2.1 mdi ud).1 = Except.ok p ∧
          out = (rec.1, mv.title, p, rec.2.2)) records l := by
  induction records generalizing md l md2 with
  | nil =>
    rw [predict_ratings] at h
    injection h with h1 h2
    injection h1 with h1
    subst h1
    exact List.Forall₂.nil
  | cons rec rest ih =>
    obtain ⟨u, m, actual⟩ := rec
    rcases hp : predict_rating u m md ud with ⟨res, md1⟩
    cases res with
    | error e =>
      simp only [predict_ratings, hp] at h
      simp at h
    | ok p =>
      simp only [predict_ratings, hp] at h
      cases hm1 : dlookup m md1 with
      | none =>
        simp only [hm1] at h
        simp at h
      | some mv1 =>
        simp only [hm1] at h
        rcases hrest : predict_ratings rest md1 ud with ⟨res2, md2b⟩
        rw [hrest] at h
        cases res2 with
        | error e2 => simp at h
        | ok l2 =>
          injection h with h1 h2
          injection h1 with h1
          subst h1
          have hstrip1 : StripEq md md1 := by
            have hs := predict_rating_stripEq u m md ud
            rw [hp] at hs
            exact hs
          obtain ⟨mv, hmv, _, htitle, _⟩ := stripEq_lookup_rev hstrip1 hm1
          refine List.Forall₂.cons ⟨md, mv, p, stripEq_refl md, hmv, by rw [hp], ?_⟩ ?_
          · rw [htitle]
          · have htail := ih md1 l2 md2b hrest
            refine List.Forall₂.imp ?_ htail
            rintro rec2 out2 ⟨mdi, mvi, pi, hstripi, hlki, hpredi, houti⟩
            obtain ⟨mvi0, hlk0, _, htitle0, _⟩ := stripEq_lookup_rev hstrip1 hlki
            exact ⟨mdi, mvi0, pi, stripEq_trans hstrip1 hstripi, hlk0, hpredi,
              by rw [houti, htitle0]⟩

theorem predict_ratings_shape_witness :
    predict_ratings [(1, 1, 4)] mdS udS = (Except.ok [(1, "A", 5, 4)], mdS) ∧
      List.Forall₂
        (fun (rec : Nat × Nat × Rating) (out : Nat × String × Rating × Rating) =>
          ∃ mdi mv p, StripEq mdS mdi ∧
            dlookup rec.2.1 mdS = some mv ∧
            (predict_rating rec.1 rec.2.1 mdi udS).1 = Except.ok p ∧
            out = (rec.1, mv.title, p, rec.2.2)) [(1, 1, 4)] [(1, "A", 5, 4)] :=
  ⟨by rfl,
    predict_ratings_shape [(1, 1, 4)] mdS udS [(1, "A", 5, 4)] mdS (by rfl)⟩

theorem compute_similarity_matches_set_average_witness :
    dlookup 2 mdS = some ⟨2, "B", [1, 2], []⟩ ∧
      ([1, 2] : List Nat).Nodup ∧
      compute_similarity ⟨1, "A", [1, 2], []⟩ 2 mdS udS =
        some (specSimilarity ⟨1, "A", [1, 2], []⟩ ⟨2, "B", [1, 2], []⟩ udS) :=
  ⟨by decide, by decide,
    compute_similarity_matches_set_average ⟨1, "A", [1, 2], []⟩ 2 ⟨2, "B", [1, 2], []⟩
      mdS udS (by decide) (by decide) (by decide) (by decide)⟩

end MovieRec
